import Mathlib

/-!
Verification of the RSVP serverless handler (netlify/functions/rsvp.js).

The source file contains three concatenated revisions of the same handler:
revision 1 (lines 1-176), revision 2 (lines 177-381) and revision 3
(lines 382-571).  The development below embeds, for each revision, the pure
parts the specification talks about: the POST validation, the stored-entry
construction, the GET aggregation loop, the listing order, the method
routing, the write-option selection for the conditional `setJSON` call, the
POST retry loop, and an interleaving model of concurrent POST handlers over
the versioned blob store.

Machine integers never overflow in the source values involved, so counts are
`Nat` and person sums are `Int` (the stored `numPersone` is produced by
`parseInt`, which can be negative).  JavaScript string truthiness is written
out explicitly.
-/

namespace Rsvp

/-- One stored RSVP entry, restricted to the fields the claims mention:
`id` and `createdAt` (generated at creation), `partecipa` (the attendance
flag string, "Sì" / "No" for well-formed entries), `numPersone` (the party
size, an integer), `nominativi` (the raw names text). -/
structure Record where
  id : String
  createdAt : String
  partecipa : String
  numPersone : Int
  nominativi : String
deriving DecidableEq

/-- JavaScript truthiness of a string: the empty string is falsy. -/
def strTruthy (s : String) : Bool := s ≠ ""

/-- JavaScript truthiness of the result of `toInt`: `null` (here `none`) and
`0` are falsy, every other integer is truthy. -/
def intOptTruthy : Option Int → Bool
  | none => false
  | some k => k ≠ 0

/-- JavaScript `s.trim()`: drop whitespace from both ends.  (Lean's own
`String.trim` is equivalent but does not reduce inside the kernel, so the
character-list form is used.) -/
def jsTrim (s : String) : String :=
  ⟨((s.data.dropWhile Char.isWhitespace).reverse.dropWhile Char.isWhitespace).reverse⟩

/-- JavaScript `s.toLowerCase()` on the ASCII range. -/
def jsToLower (s : String) : String := ⟨s.data.map Char.toLower⟩

/-! ### GET aggregation (revision 1 lines 61-91, revision 3 lines 446-474)

The loop keeps four accumulators; a record counts under "Sì" or "No"
according to its `partecipa` field (revision 3 trims it first, revision 1
compares it untrimmed) and contributes `toInt(r.numPersone) || 0` persons.
On an integer field `toInt` is the identity and `|| 0` maps `0` to `0`, so
the contribution is `numPersone` itself. -/

/-- The four running accumulators of the GET aggregation loop. -/
structure Agg where
  yesCount : Nat
  noCount : Nat
  personsYes : Int
  personsNo : Int
deriving DecidableEq

/-- The totals object of the GET response. -/
structure Totals where
  rsvpYes : Nat
  rsvpNo : Nat
  personsYes : Int
  personsNo : Int
  rsvpTotal : Nat
  personsTotal : Int
deriving DecidableEq

/-- One iteration of the revision 3 aggregation loop (lines 451-462):
`partecipa` is trimmed before comparison. -/
def aggStepRev3 (a : Agg) (r : Record) : Agg :=
  let p := jsTrim r.partecipa
  if p = "Sì" then
    { a with yesCount := a.yesCount + 1, personsYes := a.personsYes + r.numPersone }
  else if p = "No" then
    { a with noCount := a.noCount + 1, personsNo := a.personsNo + r.numPersone }
  else a

/-- One iteration of the revision 1 aggregation loop (lines 66-75): the
`partecipa` field is compared untrimmed. -/
def aggStepRev1 (a : Agg) (r : Record) : Agg :=
  if r.partecipa = "Sì" then
    { a with yesCount := a.yesCount + 1, personsYes := a.personsYes + r.numPersone }
  else if r.partecipa = "No" then
    { a with noCount := a.noCount + 1, personsNo := a.personsNo + r.numPersone }
  else a

/-- The revision 3 GET summary (lines 464-474): run the loop, then report the
four group figures, `rsvp_total = data.length` and
`persons_total = personsYes + personsNo`. -/
def summarizeRev3 (data : List Record) : Totals :=
  let a := data.foldl aggStepRev3 ⟨0, 0, 0, 0⟩
  ⟨a.yesCount, a.noCount, a.personsYes, a.personsNo, data.length,
    a.personsYes + a.personsNo⟩

/-- The revision 1 GET summary (lines 81-91). -/
def summarizeRev1 (data : List Record) : Totals :=
  let a := data.foldl aggStepRev1 ⟨0, 0, 0, 0⟩
  ⟨a.yesCount, a.noCount, a.personsYes, a.personsNo, data.length,
    a.personsYes + a.personsNo⟩

/-- Declarative description of the aggregation, written from the spec's words
(§4.5): count the records of each attendance group and sum `partySize`
within each group; a record belongs to a group by its (trimmed) flag. -/
def summarizeSpec (data : List Record) : Totals :=
  let yes := data.filter fun r => jsTrim r.partecipa = "Sì"
  let no := data.filter fun r => jsTrim r.partecipa = "No"
  ⟨yes.length, no.length, (yes.map Record.numPersone).sum,
    (no.map Record.numPersone).sum, data.length,
    (yes.map Record.numPersone).sum + (no.map Record.numPersone).sum⟩

/-! ### Listing order -/

/-- The display order used by revision 1 (lines 77-79): descending by
`createdAt`.  `b.createdAt.localeCompare(a.createdAt)` is modelled by the
lexicographic order on the character sequences (for the ISO-8601 timestamps
stored in `createdAt`, code-point comparison and locale comparison agree on
order). -/
def byCreatedAtDesc (a b : Record) : Prop :=
  b.createdAt.data ≤ a.createdAt.data

instance : DecidableRel byCreatedAtDesc := fun a b =>
  inferInstanceAs (Decidable (b.createdAt.data ≤ a.createdAt.data))

instance : IsTotal Record byCreatedAtDesc :=
  ⟨fun a b => le_total b.createdAt.data a.createdAt.data⟩

instance : IsTrans Record byCreatedAtDesc :=
  ⟨fun _ _ _ hab hbc => le_trans hbc hab⟩

/-- Revision 1 listing (lines 77-79): a copy of the data sorted with the
descending-`createdAt` comparator.  JavaScript `Array.sort` with a consistent
comparator is stable and comparator-sorted; insertion sort realises both. -/
def itemsRev1 (data : List Record) : List Record :=
  data.insertionSort byCreatedAtDesc

/-- Revision 3 listing (line 475): the data exactly as read from the store,
not sorted. -/
def itemsRev3 (data : List Record) : List Record := data

/-! ### Method routing (all three revisions route OPTIONS, GET, POST and fall
through to a 405 response for every other method; no DELETE route exists). -/

/-- Where the handler dispatches a request, by HTTP method. -/
inductive Route where
  | preflight
  | getRoute
  | postRoute
  | methodNotAllowed
deriving DecidableEq

/-- Revision 1 method dispatch (lines 37, 52, 100, 173). -/
def routeRev1 (method : String) : Route :=
  if method = "OPTIONS" then .preflight
  else if method = "GET" then .getRoute
  else if method = "POST" then .postRoute
  else .methodNotAllowed

/-- Revision 2 method dispatch (lines 237, 244, 289, 380). -/
def routeRev2 (method : String) : Route :=
  if method = "OPTIONS" then .preflight
  else if method = "GET" then .getRoute
  else if method = "POST" then .postRoute
  else .methodNotAllowed

/-- Revision 3 method dispatch (lines 432, 439, 483, 570). -/
def routeRev3 (method : String) : Route :=
  if method = "OPTIONS" then .preflight
  else if method = "GET" then .getRoute
  else if method = "POST" then .postRoute
  else .methodNotAllowed

/-- HTTP status of the fallthrough route. -/
def routeStatus : Route → Nat
  | .preflight => 204
  | .getRoute => 200
  | .postRoute => 200
  | .methodNotAllowed => 405

/-! ### POST validation

The POST body is sanitized field by field (`sanitizeString` trims and caps,
`toInt` yields an integer or `null`); the validation then runs on the
sanitized values.  `PostInput` holds those sanitized values, with
`numPersone : Option Int` for the possibly-`null` result of `toInt`. -/

/-- The sanitized POST body fields. -/
structure PostInput where
  nome : String
  cognome : String
  contatto : String
  partecipa : String
  numPersone : Option Int
  nominativi : String
  messaggio : String
deriving DecidableEq

/-- The distinct 400 rejections of the POST validation. -/
inductive PostError where
  | missingFields
  | invalidPartecipa
  | missingNumPersone
  | missingNominativi
deriving DecidableEq

/-- The attendance-relevant fields of the entry a successful validation
stores. -/
structure EntryCore where
  partecipa : String
  numPersone : Int
  nominativi : String
deriving DecidableEq

/-- Revision 1 POST validation (lines 118-127): every field including
`numPersone` and `nominativi` must be truthy, and `partecipa` must be
"Sì" or "No"; the entry then stores `numPersone` and `nominativi` as
submitted (lines 141-142), with no normalization for "No". -/
def validateRev1 (i : PostInput) : Except PostError EntryCore :=
  if !(strTruthy i.nome && strTruthy i.cognome && strTruthy i.contatto &&
       strTruthy i.partecipa && intOptTruthy i.numPersone && strTruthy i.nominativi) then
    .error .missingFields
  else if !(i.partecipa = "Sì" || i.partecipa = "No") then
    .error .invalidPartecipa
  else
    .ok ⟨i.partecipa, i.numPersone.getD 0, i.nominativi⟩

/-- The `numPersone` local after revision 3's "No" normalization
(lines 508-511): a "No" submission is forced to `0`. -/
def rev3NumPersone (i : PostInput) : Option Int :=
  if i.partecipa = "No" then some 0 else i.numPersone

/-- The `nominativi` local after revision 3's "No" normalization
(lines 508-511): a "No" submission is forced to the empty string. -/
def rev3Nominativi (i : PostInput) : String :=
  if i.partecipa = "No" then "" else i.nominativi

/-- Revision 3 POST validation (lines 500-529), identical in revision 2
(lines 305-326): the four base fields must be truthy and `partecipa` must be
"Sì" or "No"; a "No" submission is normalized to `numPersone = 0` and empty
`nominativi`; a "Sì" submission must have `numPersone ≥ 1` (falsy or `< 1`
rejects) and non-empty `nominativi`.  The entry stores `numPersone ?? 0`. -/
def validateRev3 (i : PostInput) : Except PostError EntryCore :=
  if !(strTruthy i.nome && strTruthy i.cognome && strTruthy i.contatto &&
       strTruthy i.partecipa) then
    .error .missingFields
  else if !(i.partecipa = "Sì" || i.partecipa = "No") then
    .error .invalidPartecipa
  else if i.partecipa = "Sì" &&
      (!(intOptTruthy (rev3NumPersone i)) || (rev3NumPersone i).getD 0 < 1) then
    .error .missingNumPersone
  else if i.partecipa = "Sì" && !(strTruthy (rev3Nominativi i)) then
    .error .missingNominativi
  else
    .ok ⟨i.partecipa, (rev3NumPersone i).getD 0, rev3Nominativi i⟩

/-! ### The versioned blob store and the conditional write

`getWithMetadata` returns the stored collection together with an etag;
`setJSON` with `onlyIfMatch` commits only if the stored etag still equals the
given one, with `onlyIfNew` only if no value exists, and with no option it
overwrites unconditionally.  The store is modelled as the optional value plus
a version counter; the etag a reader sees is the version number, present
exactly when a value exists. -/

/-- The state of the blob under the well-known key. -/
structure Store where
  value : Option (List Record)
  version : Nat
deriving DecidableEq

/-- The collection a reader obtains: absence reads as the empty list
(`got?.data || []`). -/
def Store.readData (s : Store) : List Record := s.value.getD []

/-- The etag a reader obtains: present exactly when a value exists. -/
def Store.readEtag (s : Store) : Option Nat :=
  if s.value.isSome then some s.version else none

/-- The third argument of `setJSON`. -/
inductive WriteCond where
  | onlyIfMatch (etag : Nat)
  | onlyIfNew
  | unconditional
deriving DecidableEq

/-- `setJSON` against store state `s`: `some s'` when the write commits
(`res.modified` / no exception), `none` on a precondition conflict. -/
def casWrite (s : Store) (c : WriteCond) (next : List Record) : Option Store :=
  match c with
  | .onlyIfMatch e => if s.readEtag = some e then some ⟨some next, s.version + 1⟩ else none
  | .onlyIfNew => if s.value = none then some ⟨some next, s.version + 1⟩ else none
  | .unconditional => some ⟨some next, s.version + 1⟩

/-- Revision 1 write-option selection (line 158):
`etag ? { onlyIfMatch: etag } : { onlyIfNew: true }`. -/
def writeCondRev1 (etag : Option Nat) : WriteCond :=
  match etag with
  | some e => .onlyIfMatch e
  | none => .onlyIfNew

/-- Revision 2 write-option selection (lines 355-357): with an etag the write
is conditional on it; with no etag it is create-if-absent when the collection
read back empty, and otherwise an unconditional overwrite (the commented
fallback). -/
def writeCondRev2 (etag : Option Nat) (current : List Record) : WriteCond :=
  match etag with
  | some e => .onlyIfMatch e
  | none => if current.length = 0 then .onlyIfNew else .unconditional

/-- Revision 3 write-option selection (line 555), same as revision 1. -/
def writeCondRev3 (etag : Option Nat) : WriteCond :=
  match etag with
  | some e => .onlyIfMatch e
  | none => .onlyIfNew

/-- The append transform both loops apply (revision 1 line 153, revision 3
line 550): `next = [...current, entry]`, an unconditional append. -/
def appendTransform (current : List Record) (entry : Record) : List Record :=
  current ++ [entry]

/-- What the spec's §4.3 describes, written from its words: insert the record
at the end provided its id is not already present (the defensive
id-uniqueness check); on a present id the collection is left unchanged. -/
def appendTransformSpec (current : List Record) (entry : Record) : List Record :=
  if current.any fun r => r.id = entry.id then current else current ++ [entry]

/-! ### The POST retry loops

Revisions 1 and 3 make up to `MAX_RETRIES` attempts (6 and 10 respectively);
an attempt reads the blob, appends the entry and calls `setJSON` with the
conditional options; `res.modified` ends the loop with a 200, otherwise the
next attempt runs; exhaustion answers 409 "Busy, retry".  The concurrent
environment is a function giving, for each attempt number, the store state at
read time and the (possibly different, because other writers committed in
between) store state at write time. -/

def MAX_RETRIES_REV1 : Nat := 6

def MAX_RETRIES_REV2 : Nat := 10

def MAX_RETRIES_REV3 : Nat := 10

/-- The final answer of the POST handler. -/
inductive PostOutcome where
  | applied (id : String)
  | busy
deriving DecidableEq

/-- HTTP status of a POST answer (200 for `ok: true`, 409 for "Busy, retry"). -/
def postStatus : PostOutcome → Nat
  | .applied _ => 200
  | .busy => 409

/-- The remaining attempts of the revision 3 loop (lines 545-564), starting at
attempt number `k` with `fuel` attempts left. -/
def postAttemptsRev3 (entry : Record) (env : Nat → Store × Store) :
    Nat → Nat → PostOutcome
  | 0, _ => .busy
  | fuel + 1, k =>
    let sR := (env k).1
    let sW := (env k).2
    let current := sR.readData
    let etag := sR.readEtag
    let next := appendTransform current entry
    match casWrite sW (writeCondRev3 etag) next with
    | some _ => .applied entry.id
    | none => postAttemptsRev3 entry env fuel (k + 1)

/-- The revision 3 POST loop: attempts 1 to `MAX_RETRIES` (= 10), then 409. -/
def postLoopRev3 (entry : Record) (env : Nat → Store × Store) : PostOutcome :=
  postAttemptsRev3 entry env MAX_RETRIES_REV3 1

/-- The remaining attempts of the revision 1 loop (lines 148-166); the body is
the same as revision 3's, with revision 1's write options. -/
def postAttemptsRev1 (entry : Record) (env : Nat → Store × Store) :
    Nat → Nat → PostOutcome
  | 0, _ => .busy
  | fuel + 1, k =>
    let sR := (env k).1
    let sW := (env k).2
    let current := sR.readData
    let etag := sR.readEtag
    let next := appendTransform current entry
    match casWrite sW (writeCondRev1 etag) next with
    | some _ => .applied entry.id
    | none => postAttemptsRev1 entry env fuel (k + 1)

/-- The revision 1 POST loop: attempts 1 to `MAX_RETRIES` (= 6), then 409. -/
def postLoopRev1 (entry : Record) (env : Nat → Store × Store) : PostOutcome :=
  postAttemptsRev1 entry env MAX_RETRIES_REV1 1

/-! ### Revision 2's exception-based loop and error classification

In revision 2 `setJSON` is not inspected through `res.modified`; instead any
thrown error lands in a catch block (lines 363-374) that classifies it with
`isPreconditionError` and retries — in both the precondition branch and the
non-precondition branch — while attempts remain, answering 409 after
`MAX_RETRIES` failed attempts. -/

/-- Whether the list starting here begins with `needle`. -/
def matchesAt : List Char → List Char → Bool
  | [], _ => true
  | _ :: _, [] => false
  | a :: as, b :: bs => a = b && matchesAt as bs

/-- Whether `needle` occurs somewhere in the haystack. -/
def hasSubList (needle : List Char) : List Char → Bool
  | [] => matchesAt needle []
  | b :: bs => matchesAt needle (b :: bs) || hasSubList needle bs

/-- JavaScript `hay.includes(needle)`. -/
def strIncludes (hay needle : String) : Bool :=
  hasSubList needle.toList hay.toList

/-- `isPreconditionError` (revision 2 lines 224-233): the error message
contains "412", or its lowercase form contains "precondition", "onlyifmatch"
or "condition". -/
def isPreconditionError (msg : String) : Bool :=
  strIncludes msg "412" ||
  strIncludes (jsToLower msg) "precondition" ||
  strIncludes (jsToLower msg) "onlyifmatch" ||
  strIncludes (jsToLower msg) "condition"

/-- What one revision 2 attempt does: the `setJSON` call returns normally, or
throws an error with the given message. -/
inductive AttemptResult where
  | success
  | err (msg : String)
deriving DecidableEq

/-- The remaining attempts of the revision 2 loop (lines 342-375), starting at
attempt number `k` with `fuel` attempts left; the second component counts the
attempts actually made.  A thrown error is retried while `attempt <
MAX_RETRIES`, first when classified as a precondition error and then — "provo
ancora" — in every other case as well; at the last attempt the catch block
swallows the error and the loop falls through to the 409 answer. -/
def rev2Attempts (entryId : String) (outcome : Nat → AttemptResult) :
    Nat → Nat → PostOutcome × Nat
  | 0, _ => (.busy, 0)
  | fuel + 1, k =>
    match outcome k with
    | .success => (.applied entryId, 1)
    | .err e =>
      if isPreconditionError e && k < MAX_RETRIES_REV2 then
        let r := rev2Attempts entryId outcome fuel (k + 1)
        (r.1, r.2 + 1)
      else if k < MAX_RETRIES_REV2 then
        let r := rev2Attempts entryId outcome fuel (k + 1)
        (r.1, r.2 + 1)
      else
        (.busy, 1)

/-- The revision 2 POST loop with its attempt count. -/
def postLoopRev2 (entryId : String) (outcome : Nat → AttemptResult) :
    PostOutcome × Nat :=
  rev2Attempts entryId outcome MAX_RETRIES_REV2 1

/-! ### Interleaved concurrent POST handlers

`n` stateless handlers each try to append their own entry to the shared
blob.  Each handler repeats the loop body: read the blob (value and etag),
then attempt the conditional write; a conflict sends it back to the read.
The handlers interleave arbitrarily; the store is the only shared state, and
each committed write bumps the version counter. -/

/-- Where one handler stands in its current attempt. -/
inductive WriterState where
  | idle
  | readDone (current : List Record) (etag : Option Nat)
  | applied
deriving DecidableEq

/-- The whole system: the shared store plus every handler's state. -/
structure Sys (n : Nat) where
  store : Store
  writers : Fin n → WriterState

/-- Initially the blob is absent (no write ever happened) and every handler
is about to make its first attempt. -/
def Sys.init (n : Nat) : Sys n := ⟨⟨none, 0⟩, fun _ => .idle⟩

/-- One interleaving step: some handler reads, commits its conditional write,
or hits a conflict and goes back to reading.  `cond` is the revision's
write-option selection, applied to the etag and collection that handler read
in its current attempt. -/
inductive SysStep {n : Nat} (cond : Option Nat → List Record → WriteCond)
    (entry : Fin n → Record) : Sys n → Sys n → Prop where
  | read (s : Sys n) (w : Fin n) (h : s.writers w = .idle) :
      SysStep cond entry s
        ⟨s.store, Function.update s.writers w
          (.readDone s.store.readData s.store.readEtag)⟩
  | commit (s : Sys n) (w : Fin n) (c : List Record) (e : Option Nat) (s₂ : Store)
      (h : s.writers w = .readDone c e)
      (hw : casWrite s.store (cond e c) (appendTransform c (entry w)) = some s₂) :
      SysStep cond entry s ⟨s₂, Function.update s.writers w .applied⟩
  | conflict (s : Sys n) (w : Fin n) (c : List Record) (e : Option Nat)
      (h : s.writers w = .readDone c e)
      (hw : casWrite s.store (cond e c) (appendTransform c (entry w)) = none) :
      SysStep cond entry s ⟨s.store, Function.update s.writers w .idle⟩

/-- The inductive invariant: (1) the stored collection is exactly the entries
of the handlers that have committed, in commit order; (2) every read snapshot
is consistent with the store — an absent etag means the handler read the
empty collection, and an etag equal to the current version means the store
still holds exactly the collection that handler read (versions only grow, so
a stale etag can never match again). -/
def SysInv {n : Nat} (entry : Fin n → Record) (s : Sys n) : Prop :=
  (∃ l : List (Fin n), l.Nodup ∧ (∀ w, w ∈ l ↔ s.writers w = .applied) ∧
      s.store.readData = l.map entry) ∧
  ∀ w c e, s.writers w = .readDone c e →
    (e = none → c = []) ∧ ∀ v, e = some v → v ≤ s.store.version ∧
      (s.store.version = v → s.store.value = some c)

lemma Store.readEtag_none {s : Store} (h : s.readEtag = none) : s.value = none := by
  unfold Store.readEtag at h
  cases hv : s.value with
  | none => rfl
  | some d => rw [hv] at h; simp at h

lemma Store.readEtag_some {s : Store} {v : Nat} (h : s.readEtag = some v) :
    s.version = v ∧ s.value = some s.readData := by
  unfold Store.readEtag at h
  cases hv : s.value with
  | none => rw [hv] at h; simp at h
  | some d =>
      rw [hv] at h
      simp at h
      exact ⟨h, by simp [Store.readData, hv]⟩

lemma sysInv_init {n : Nat} (entry : Fin n → Record) : SysInv entry (Sys.init n) := by
  constructor
  · refine ⟨[], List.nodup_nil, fun w => ?_, by simp [Sys.init, Store.readData]⟩
    simp [Sys.init]
  · intro w c e hw
    simp [Sys.init] at hw

lemma sysInv_step {n : Nat} {cond : Option Nat → List Record → WriteCond}
    {entry : Fin n → Record} {s t : Sys n}
    (hc1 : ∀ e c, cond (some e) c = .onlyIfMatch e)
    (hc2 : cond none [] = .onlyIfNew)
    (hinv : SysInv entry s) (hstep : SysStep cond entry s t) : SysInv entry t := by
  obtain ⟨⟨l, hnd, hmem, hdata⟩, hrd⟩ := hinv
  cases hstep with
  | read w h =>
      refine ⟨⟨l, hnd, fun u => ?_, hdata⟩, fun u c e hu => ?_⟩
      · dsimp only
        rcases eq_or_ne u w with rfl | hne
        · rw [hmem u, h]
          simp [Function.update]
        · rw [Function.update_noteq hne]
          exact hmem u
      · dsimp only at hu ⊢
        rcases eq_or_ne u w with rfl | hne
        · rw [Function.update_same] at hu
          injection hu with h1 h2
          subst h1
          subst h2
          constructor
          · intro he
            simp [Store.readData, Store.readEtag_none he]
          · intro v hv
            obtain ⟨h1, h2⟩ := Store.readEtag_some hv
            exact ⟨le_of_eq h1.symm, fun _ => h2⟩
        · rw [Function.update_noteq hne] at hu
          exact hrd u c e hu
  | conflict w c0 e0 h hw =>
      refine ⟨⟨l, hnd, fun u => ?_, hdata⟩, fun u c e hu => ?_⟩
      · dsimp only
        rcases eq_or_ne u w with rfl | hne
        · rw [hmem u, h]
          simp [Function.update]
        · rw [Function.update_noteq hne]
          exact hmem u
      · dsimp only at hu ⊢
        rcases eq_or_ne u w with rfl | hne
        · rw [Function.update_same] at hu
          exact absurd hu (by simp)
        · rw [Function.update_noteq hne] at hu
          exact hrd u c e hu
  | commit w c0 e0 s₂ h hw =>
      have hwnotin : w ∉ l := fun hin => by
        have hap := (hmem w).mp hin
        rw [h] at hap
        exact WriterState.noConfusion hap
      have hkey : s₂ = ⟨some (appendTransform c0 (entry w)), s.store.version + 1⟩ ∧
          s.store.readData = c0 := by
        cases e0 with
        | some v =>
            rw [hc1 v c0] at hw
            simp only [casWrite] at hw
            by_cases hm : s.store.readEtag = some v
            · obtain ⟨h1, h2⟩ := Store.readEtag_some hm
              have hvc : s.store.value = some c0 := ((hrd w c0 (some v) h).2 v rfl).2 h1
              rw [if_pos hm] at hw
              refine ⟨(Option.some.inj hw).symm, ?_⟩
              simp [Store.readData, hvc]
            · rw [if_neg hm] at hw
              exact Option.noConfusion hw
        | none =>
            have hc0 : c0 = [] := (hrd w c0 none h).1 rfl
            subst hc0
            rw [hc2] at hw
            simp only [casWrite] at hw
            by_cases hm : s.store.value = none
            · rw [if_pos hm] at hw
              refine ⟨(Option.some.inj hw).symm, ?_⟩
              simp [Store.readData, hm]
            · rw [if_neg hm] at hw
              exact Option.noConfusion hw
      obtain ⟨hs₂, hrdc⟩ := hkey
      subst hs₂
      have hc0l : c0 = l.map entry := by rw [← hrdc, hdata]
      refine ⟨⟨l ++ [w], ?_, fun u => ?_, ?_⟩, fun u c e hu => ?_⟩
      · exact List.Nodup.append hnd (List.nodup_singleton w)
          (List.disjoint_singleton.mpr hwnotin)
      · dsimp only
        rcases eq_or_ne u w with rfl | hne
        · simp [Function.update]
        · rw [Function.update_noteq hne]
          constructor
          · intro hin
            rcases List.mem_append.mp hin with hin | hin
            · exact (hmem u).mp hin
            · exact absurd (List.mem_singleton.mp hin) hne
          · intro ha
            exact List.mem_append.mpr (Or.inl ((hmem u).mpr ha))
      · simp [Store.readData, appendTransform, hc0l]
      · dsimp only at hu ⊢
        rcases eq_or_ne u w with rfl | hne
        · rw [Function.update_same] at hu
          exact absurd hu (by simp)
        · rw [Function.update_noteq hne] at hu
          obtain ⟨hnone, hsome⟩ := hrd u c e hu
          refine ⟨hnone, fun v hv => ?_⟩
          obtain ⟨hle, _⟩ := hsome v hv
          refine ⟨Nat.le_succ_of_le hle, fun hvv => ?_⟩
          exact absurd hvv (by omega)

lemma sysInv_reach {n : Nat} {cond : Option Nat → List Record → WriteCond}
    {entry : Fin n → Record} {s : Sys n}
    (hc1 : ∀ e c, cond (some e) c = .onlyIfMatch e)
    (hc2 : cond none [] = .onlyIfNew)
    (hreach : Relation.ReflTransGen (SysStep cond entry) (Sys.init n) s) :
    SysInv entry s := by
  induction hreach with
  | refl => exact sysInv_init entry
  | tail _ hstep ih => exact sysInv_step hc1 hc2 ih hstep

/-! ## Theorems -/

lemma foldl_aggStepRev3 (l : List Record) (a : Agg) :
    l.foldl aggStepRev3 a =
      ⟨a.yesCount + (l.filter fun r => jsTrim r.partecipa = "Sì").length,
       a.noCount + (l.filter fun r => jsTrim r.partecipa = "No").length,
       a.personsYes + ((l.filter fun r => jsTrim r.partecipa = "Sì").map Record.numPersone).sum,
       a.personsNo + ((l.filter fun r => jsTrim r.partecipa = "No").map Record.numPersone).sum⟩ := by
  induction l generalizing a with
  | nil => simp
  | cons r t ih =>
    by_cases hy : jsTrim r.partecipa = "Sì"
    · have hn : ¬ jsTrim r.partecipa = "No" := by rw [hy]; decide
      have hstep : aggStepRev3 a r =
          ⟨a.yesCount + 1, a.noCount, a.personsYes + r.numPersone, a.personsNo⟩ := by
        simp only [aggStepRev3]
        rw [if_pos hy]
      rw [List.foldl_cons, hstep, ih]
      simp only [List.filter_cons, decide_eq_true_eq]
      rw [if_pos hy, if_neg hn]
      simp only [List.length_cons, List.map_cons, List.sum_cons, Agg.mk.injEq]
      refine ⟨by ring, by ring, by ring, by ring⟩
    · by_cases hn : jsTrim r.partecipa = "No"
      · have hstep : aggStepRev3 a r =
            ⟨a.yesCount, a.noCount + 1, a.personsYes, a.personsNo + r.numPersone⟩ := by
          simp only [aggStepRev3]
          rw [if_neg hy, if_pos hn]
        rw [List.foldl_cons, hstep, ih]
        simp only [List.filter_cons, decide_eq_true_eq]
        rw [if_neg hy, if_pos hn]
        simp only [List.length_cons, List.map_cons, List.sum_cons, Agg.mk.injEq]
        refine ⟨by ring, by ring, by ring, by ring⟩
      · have hstep : aggStepRev3 a r = a := by
          simp only [aggStepRev3]
          rw [if_neg hy, if_neg hn]
        rw [List.foldl_cons, hstep, ih]
        simp only [List.filter_cons, decide_eq_true_eq]
        rw [if_neg hy, if_neg hn]

lemma summarizeRev3_eq_spec (l : List Record) : summarizeRev3 l = summarizeSpec l := by
  unfold summarizeRev3 summarizeSpec
  rw [foldl_aggStepRev3]
  simp

/-- C8: the revision 3 GET summary is a pure function of the collection that
counts records by (trimmed) attendance flag and sums `numPersone` within each
group — it agrees with the declarative description `summarizeSpec` on every
collection — and on the collection [{Sì,2},{Sì,3},{No,0}] it reports 2
attending totalling 5 persons, 1 not attending totalling 0 persons, 3 records
and 5 persons in total. -/
theorem summarizeRev3_correct :
    (∀ l : List Record, summarizeRev3 l = summarizeSpec l) ∧
    summarizeRev3
      [⟨"id-a", "2025-01-01T10:00:00Z", "Sì", 2, "Anna, Marco"⟩,
       ⟨"id-b", "2025-01-02T11:00:00Z", "Sì", 3, "Ilaria, Luca, Piero"⟩,
       ⟨"id-c", "2025-01-03T12:00:00Z", "No", 0, ""⟩] =
      ⟨2, 1, 5, 0, 3, 5⟩ :=
  ⟨summarizeRev3_eq_spec, by decide⟩

/-- C10: in both aggregation revisions `persons_total` is literally
`persons_yes + persons_no`; a record whose flag is neither "Sì" nor "No"
bumps `rsvp_total` and leaves the four per-flag figures and `persons_total`
unchanged; and on the one-record collection [{Forse,4}] the total count (1)
exceeds the sum of the per-flag counts (0). -/
theorem personsTotalSplit :
    (∀ l : List Record,
      (summarizeRev3 l).personsTotal =
        (summarizeRev3 l).personsYes + (summarizeRev3 l).personsNo ∧
      (summarizeRev1 l).personsTotal =
        (summarizeRev1 l).personsYes + (summarizeRev1 l).personsNo) ∧
    (∀ (l : List Record) (r : Record), jsTrim r.partecipa ≠ "Sì" →
      jsTrim r.partecipa ≠ "No" →
      summarizeRev3 (l ++ [r]) =
        { summarizeRev3 l with rsvpTotal := (summarizeRev3 l).rsvpTotal + 1 }) ∧
    (summarizeRev3 [⟨"id-x", "2025-01-05T00:00:00Z", "Forse", 4, ""⟩] =
      ⟨0, 0, 0, 0, 1, 0⟩ ∧ 0 + 0 < 1) := by
  refine ⟨fun l => ⟨rfl, rfl⟩, fun l r hy hn => ?_, by decide, by decide⟩
  have hstep : ∀ a : Agg, aggStepRev3 a r = a := fun a => by
    simp only [aggStepRev3]
    rw [if_neg hy, if_neg hn]
  simp only [summarizeRev3, List.foldl_append, List.foldl_cons, List.foldl_nil,
    hstep, List.length_append, List.length_singleton]

/-- C9 counterexample: revision 3 returns the stored collection as the
listing without sorting; on a two-record collection whose first record is
older, the listing is not in descending `createdAt` order. -/
theorem itemsRev3_unsorted_cex :
    itemsRev3 [⟨"id-old", "2024-01-01T00:00:00Z", "Sì", 1, "a"⟩,
               ⟨"id-new", "2025-01-01T00:00:00Z", "Sì", 1, "b"⟩] =
      [⟨"id-old", "2024-01-01T00:00:00Z", "Sì", 1, "a"⟩,
       ⟨"id-new", "2025-01-01T00:00:00Z", "Sì", 1, "b"⟩] ∧
    ¬ List.Sorted byCreatedAtDesc
        (itemsRev3 [⟨"id-old", "2024-01-01T00:00:00Z", "Sì", 1, "a"⟩,
                    ⟨"id-new", "2025-01-01T00:00:00Z", "Sì", 1, "b"⟩]) := by
  refine ⟨rfl, fun h => ?_⟩
  have hrel := List.rel_of_sorted_cons h _ (List.mem_singleton.mpr rfl)
  exact absurd hrel (by decide)

/-- C9 (amended): revision 1 presents the listing sorted descending by
`createdAt` (a permutation of the collection); revision 3 presents the
collection exactly in stored order. -/
theorem itemsOrdering :
    (∀ l : List Record,
      List.Sorted byCreatedAtDesc (itemsRev1 l) ∧ (itemsRev1 l).Perm l) ∧
    (∀ l : List Record, itemsRev3 l = l) :=
  ⟨fun l => ⟨List.sorted_insertionSort byCreatedAtDesc l,
    List.perm_insertionSort byCreatedAtDesc l⟩, fun _ => rfl⟩

/-- C5 counterexample: the append transform performs no id-uniqueness check —
appending a record whose id is already present still appends it, so the
mapped id list gains a duplicate (is not `Nodup`), and the outcome differs
from the spec's defensively-checked transform. -/
theorem appendTransform_noIdCheck_cex :
    appendTransform [⟨"dup", "2025-01-01T00:00:00Z", "Sì", 2, "a"⟩]
        ⟨"dup", "2025-01-01T00:00:00Z", "Sì", 2, "a"⟩ =
      [⟨"dup", "2025-01-01T00:00:00Z", "Sì", 2, "a"⟩,
       ⟨"dup", "2025-01-01T00:00:00Z", "Sì", 2, "a"⟩] ∧
    ¬ ((appendTransform [⟨"dup", "2025-01-01T00:00:00Z", "Sì", 2, "a"⟩]
        ⟨"dup", "2025-01-01T00:00:00Z", "Sì", 2, "a"⟩).map Record.id).Nodup ∧
    appendTransform [⟨"dup", "2025-01-01T00:00:00Z", "Sì", 2, "a"⟩]
        ⟨"dup", "2025-01-01T00:00:00Z", "Sì", 2, "a"⟩ ≠
      appendTransformSpec [⟨"dup", "2025-01-01T00:00:00Z", "Sì", 2, "a"⟩]
        ⟨"dup", "2025-01-01T00:00:00Z", "Sì", 2, "a"⟩ := by
  decide

/-- C5 (amended): the append transform is the unconditional append
`C ++ [r]` for every collection and record — the existing records and their
order are untouched (they are the prefix of the result), the new record is
last, the length grows by one, and no rejection path exists; when `r.id` is
not already present this coincides with the spec's checked transform. -/
theorem appendTransform_unconditional (C : List Record) (r : Record) :
    appendTransform C r = C ++ [r] ∧
    (appendTransform C r).take C.length = C ∧
    (appendTransform C r).getLast? = some r ∧
    (appendTransform C r).length = C.length + 1 ∧
    ((∀ q ∈ C, q.id ≠ r.id) → appendTransform C r = appendTransformSpec C r) := by
  refine ⟨rfl, List.take_left C [r], List.getLast?_concat C, by
    simp [appendTransform], fun hid => ?_⟩
  unfold appendTransform appendTransformSpec
  rw [if_neg]
  simp only [List.any_eq_true, decide_eq_true_eq, not_exists]
  intro q hq
  exact hid q hq.1 hq.2

/-- C6 counterexample: no revision exposes a delete operation — a DELETE
request falls through every route to the 405 Method Not Allowed response. -/
theorem deleteRoute_cex :
    routeRev1 "DELETE" = Route.methodNotAllowed ∧
    routeRev2 "DELETE" = Route.methodNotAllowed ∧
    routeRev3 "DELETE" = Route.methodNotAllowed ∧
    routeStatus (routeRev3 "DELETE") = 405 := by
  decide

/-- C6 (amended): there is no `deleteById` operation; every method other than
OPTIONS, GET and POST — DELETE included — is dispatched to the 405 Method Not
Allowed fallthrough in all three revisions. -/
theorem noDeleteRoute (m : String) (h1 : m ≠ "OPTIONS") (h2 : m ≠ "GET")
    (h3 : m ≠ "POST") :
    routeRev1 m = Route.methodNotAllowed ∧
    routeRev2 m = Route.methodNotAllowed ∧
    routeRev3 m = Route.methodNotAllowed ∧
    routeStatus (routeRev3 m) = 405 := by
  unfold routeRev1 routeRev2 routeRev3
  rw [if_neg h1, if_neg h2, if_neg h3]
  exact ⟨rfl, rfl, rfl, rfl⟩

/-- C6 witness: the amended routing fact evaluated at the DELETE method. -/
theorem noDeleteRoute_witness :
    routeRev1 "DELETE" = Route.methodNotAllowed ∧
    routeRev2 "DELETE" = Route.methodNotAllowed ∧
    routeRev3 "DELETE" = Route.methodNotAllowed ∧
    routeStatus (routeRev3 "DELETE") = 405 :=
  noDeleteRoute "DELETE" (by decide) (by decide) (by decide)

/-- C2 counterexample: in revision 2, when the read yields no etag but a
non-empty collection, the selected `setJSON` options impose no condition —
and such an unconditional write always commits, overwriting the existing
collection (here dropping the stored record). -/
theorem writeCondRev2_unconditional_cex :
    writeCondRev2 none [⟨"id-1", "2025-01-01T00:00:00Z", "Sì", 2, "a"⟩] =
      WriteCond.unconditional ∧
    casWrite ⟨some [⟨"id-1", "2025-01-01T00:00:00Z", "Sì", 2, "a"⟩], 5⟩
        WriteCond.unconditional [⟨"id-2", "2025-01-02T00:00:00Z", "No", 0, ""⟩] =
      some ⟨some [⟨"id-2", "2025-01-02T00:00:00Z", "No", 0, ""⟩], 6⟩ := by
  decide

/-- C2 (amended): revisions 1 and 3 always write conditionally — with
`onlyIfMatch` on the etag read in the same attempt when one was read, with
`onlyIfNew` otherwise — and never unconditionally; revision 2 does the same
when an etag was read or the collection read back empty, but issues an
unconditional overwrite exactly when no etag was read and the collection
read was non-empty. -/
theorem writeCondSelection :
    (∀ etag, writeCondRev1 etag ≠ WriteCond.unconditional) ∧
    (∀ etag, writeCondRev3 etag ≠ WriteCond.unconditional) ∧
    (∀ e, writeCondRev1 (some e) = WriteCond.onlyIfMatch e) ∧
    writeCondRev1 none = WriteCond.onlyIfNew ∧
    (∀ e, writeCondRev3 (some e) = WriteCond.onlyIfMatch e) ∧
    writeCondRev3 none = WriteCond.onlyIfNew ∧
    (∀ e c, writeCondRev2 (some e) c = WriteCond.onlyIfMatch e) ∧
    writeCondRev2 none [] = WriteCond.onlyIfNew ∧
    (∀ etag c, writeCondRev2 etag c = WriteCond.unconditional ↔
      etag = none ∧ c ≠ []) := by
  refine ⟨fun etag => ?_, fun etag => ?_, fun e => rfl, rfl, fun e => rfl, rfl,
    fun e c => rfl, rfl, fun etag c => ?_⟩
  · cases etag <;> simp [writeCondRev1]
  · cases etag <;> simp [writeCondRev3]
  · cases etag with
    | some e => simp [writeCondRev2]
    | none =>
        cases c with
        | nil => simp [writeCondRev2]
        | cons r t => simp [writeCondRev2]

/-- C7 counterexample: revision 1 performs no normalization for a "No"
submission — a body with partecipa "No", numPersone 3 and non-empty
nominativi passes validation and the stored entry keeps partySize 3,
violating "NotAttending implies stored partySize = 0 and namesList empty". -/
theorem validateRev1_noNormalization_cex :
    validateRev1 ⟨"Mario", "Rossi", "333 1234567", "No", some 3, "Mario, Anna", ""⟩ =
      Except.ok ⟨"No", 3, "Mario, Anna"⟩ ∧ (3 : Int) ≠ 0 :=
  ⟨rfl, by decide⟩

/-- C7 (amended): revision 3 (and revision 2, whose validation is identical)
enforces the attendance rule before any store interaction — every entry that
passes validation has flag "Sì" or "No"; "Sì" implies partySize ≥ 1 and
non-empty nominativi (otherwise a 400 rejection); "No" is normalized to
partySize 0 and empty nominativi.  Revision 1 requires a truthy partySize
and non-empty nominativi for every submission but neither rejects nor
normalizes a "No" submission with a positive partySize. -/
theorem attendanceInvariantRev3 (i : PostInput) (e : EntryCore)
    (h : validateRev3 i = Except.ok e) :
    (e.partecipa = "Sì" ∨ e.partecipa = "No") ∧
    (e.partecipa = "Sì" → 1 ≤ e.numPersone ∧ e.nominativi ≠ "") ∧
    (e.partecipa = "No" → e.numPersone = 0 ∧ e.nominativi = "") := by
  unfold validateRev3 at h
  split at h
  · exact absurd h (by simp)
  split at h
  · exact absurd h (by simp)
  split at h
  · exact absurd h (by simp)
  split at h
  · exact absurd h (by simp)
  rename_i hbase hflag hnum hnom
  rw [Except.ok.injEq] at h
  subst h
  have hflag2 : i.partecipa = "Sì" ∨ i.partecipa = "No" := by
    by_contra hcon
    push_neg at hcon
    exact hflag (by simp [hcon.1, hcon.2])
  by_cases hno : i.partecipa = "No"
  · refine ⟨Or.inr hno, fun hsi => ?_, fun _ => ?_⟩
    · have hsi2 : i.partecipa = "Sì" := hsi
      rw [hno] at hsi2
      exact absurd hsi2 (by decide)
    · refine ⟨?_, ?_⟩
      · show (rev3NumPersone i).getD 0 = 0
        rw [rev3NumPersone, if_pos hno]
        rfl
      · show rev3Nominativi i = ""
        rw [rev3Nominativi, if_pos hno]
  · have hsi : i.partecipa = "Sì" := by
      rcases hflag2 with hsi | hno2
      · exact hsi
      · exact absurd hno2 hno
    refine ⟨Or.inl hsi, fun _ => ?_, fun hno2 => absurd hno2 hno⟩
    refine ⟨?_, ?_⟩
    · show 1 ≤ (rev3NumPersone i).getD 0
      have hge : ¬ ((rev3NumPersone i).getD 0 < 1) := by
        intro hlt
        exact hnum (by simp [hsi, hlt])
      exact not_lt.mp hge
    · show rev3Nominativi i ≠ ""
      intro hemp
      exact hnom (by simp [hsi, hemp, strTruthy])

/-- C7 witness: the amended invariant applied to an accepted "Sì" submission
for two people. -/
theorem attendanceInvariantRev3_witness :
    validateRev3 ⟨"Marco", "Bianchi", "mb@example.com", "Sì", some 2, "Marco, Ilaria", "ciao"⟩ =
      Except.ok ⟨"Sì", 2, "Marco, Ilaria"⟩ ∧
    (("Sì" : String) = "Sì" ∨ ("Sì" : String) = "No") ∧
    ((("Sì" : String) = "Sì") → 1 ≤ (2 : Int) ∧ ("Marco, Ilaria" : String) ≠ "") ∧
    ((("Sì" : String) = "No") → (2 : Int) = 0 ∧ ("Marco, Ilaria" : String) = "") := by
  refine ⟨rfl, ?_⟩
  exact attendanceInvariantRev3
    ⟨"Marco", "Bianchi", "mb@example.com", "Sì", some 2, "Marco, Ilaria", "ciao"⟩
    ⟨"Sì", 2, "Marco, Ilaria"⟩ rfl

lemma postAttemptsRev3_busy (entry : Record) (env : Nat → Store × Store)
    (hconf : ∀ k, casWrite (env k).2 (writeCondRev3 (env k).1.readEtag)
      (appendTransform (env k).1.readData entry) = none) :
    ∀ fuel k, postAttemptsRev3 entry env fuel k = .busy := by
  intro fuel
  induction fuel with
  | zero => intro k; rfl
  | succ n ih =>
      intro k
      simp only [postAttemptsRev3]
      rw [hconf k]
      exact ih (k + 1)

lemma postAttemptsRev1_busy (entry : Record) (env : Nat → Store × Store)
    (hconf : ∀ k, casWrite (env k).2 (writeCondRev1 (env k).1.readEtag)
      (appendTransform (env k).1.readData entry) = none) :
    ∀ fuel k, postAttemptsRev1 entry env fuel k = .busy := by
  intro fuel
  induction fuel with
  | zero => intro k; rfl
  | succ n ih =>
      intro k
      simp only [postAttemptsRev1]
      rw [hconf k]
      exact ih (k + 1)

/-- C3: when every conditional write of the POST loop conflicts (the store
seen at write time no longer matches what the attempt read), the loop
terminates after its `MAX_RETRIES` attempts and answers Busy (HTTP 409),
never the `ok` answer — the record is not silently treated as stored.  Both
the revision 1 loop (6 attempts) and the revision 3 loop (10 attempts) are
covered. -/
theorem busyOnExhaustion (entry1 entry3 : Record) (env1 env3 : Nat → Store × Store)
    (h1 : ∀ k, casWrite (env1 k).2 (writeCondRev1 (env1 k).1.readEtag)
        (appendTransform (env1 k).1.readData entry1) = none)
    (h3 : ∀ k, casWrite (env3 k).2 (writeCondRev3 (env3 k).1.readEtag)
        (appendTransform (env3 k).1.readData entry3) = none) :
    postLoopRev1 entry1 env1 = .busy ∧
    postStatus (postLoopRev1 entry1 env1) = 409 ∧
    postLoopRev3 entry3 env3 = .busy ∧
    postStatus (postLoopRev3 entry3 env3) = 409 ∧
    (∀ s, postLoopRev1 entry1 env1 ≠ .applied s) ∧
    (∀ s, postLoopRev3 entry3 env3 ≠ .applied s) := by
  have hb1 : postLoopRev1 entry1 env1 = .busy :=
    postAttemptsRev1_busy entry1 env1 h1 MAX_RETRIES_REV1 1
  have hb3 : postLoopRev3 entry3 env3 = .busy :=
    postAttemptsRev3_busy entry3 env3 h3 MAX_RETRIES_REV3 1
  refine ⟨hb1, by rw [hb1]; rfl, hb3, by rw [hb3]; rfl, ?_, ?_⟩
  · intro s hs
    rw [hb1] at hs
    exact PostOutcome.noConfusion hs
  · intro s hs
    rw [hb3] at hs
    exact PostOutcome.noConfusion hs

/-- A store environment in which every attempt conflicts: between each read
(version 0) and the corresponding write, another writer has bumped the store
to version 1. -/
def conflictEnv : Nat → Store × Store := fun _ => (⟨some [], 0⟩, ⟨some [], 1⟩)

/-- A sample well-formed entry used by the concrete runs. -/
def sampleRecord : Record := ⟨"id-s", "2025-06-01T00:00:00Z", "Sì", 2, "Anna, Bruno"⟩

/-- C3 witness: the exhaustion theorem evaluated on the always-conflicting
environment. -/
theorem busyOnExhaustion_witness :
    postLoopRev1 sampleRecord conflictEnv = .busy ∧
    postStatus (postLoopRev1 sampleRecord conflictEnv) = 409 ∧
    postLoopRev3 sampleRecord conflictEnv = .busy ∧
    postStatus (postLoopRev3 sampleRecord conflictEnv) = 409 ∧
    (∀ s, postLoopRev1 sampleRecord conflictEnv ≠ .applied s) ∧
    (∀ s, postLoopRev3 sampleRecord conflictEnv ≠ .applied s) :=
  busyOnExhaustion sampleRecord sampleRecord conflictEnv conflictEnv
    (fun _ => rfl) (fun _ => rfl)

lemma rev2Attempts_allErr (entryId : String) (outcome : Nat → AttemptResult)
    (msgs : Nat → String) (hout : ∀ k, outcome k = .err (msgs k)) :
    ∀ fuel k, 0 < fuel → k + fuel = MAX_RETRIES_REV2 + 1 →
      rev2Attempts entryId outcome fuel k = (.busy, fuel) := by
  intro fuel
  induction fuel with
  | zero =>
      intro k h
      exact absurd h (by omega)
  | succ n ih =>
      intro k _ hk
      simp only [rev2Attempts, hout k]
      by_cases hn0 : n = 0
      · subst hn0
        have hkM : k = MAX_RETRIES_REV2 := by omega
        rw [if_neg (by simp [hkM]), if_neg (by simp [hkM])]
      · have hrec : rev2Attempts entryId outcome n (k + 1) = (.busy, n) :=
          ih (k + 1) (by omega) (by omega)
        have hklt : k < MAX_RETRIES_REV2 := by
          unfold MAX_RETRIES_REV2 at hk ⊢
          omega
        by_cases hp : isPreconditionError (msgs k) = true
        · rw [if_pos (by simp [hp, hklt]), hrec]
        · have hp2 : isPreconditionError (msgs k) = false :=
            Bool.eq_false_iff.mpr hp
          rw [if_neg (by simp [hp2]), if_pos (by simp [hklt]), hrec]

/-- C4 counterexample: a non-precondition store failure ("ECONNRESET", not
classified as a conflict by `isPreconditionError`) thrown at every attempt is
retried through all 10 revision 2 attempts and then surfaced as Busy — not
as an immediate, distinct fatal store error after the first attempt. -/
theorem rev2FatalError_cex :
    isPreconditionError "ECONNRESET: network unreachable" = false ∧
    postLoopRev2 "id-w" (fun _ => .err "ECONNRESET: network unreachable") =
      (.busy, 10) ∧ (10 : Nat) ≠ 1 := by
  refine ⟨rfl, rfl, by decide⟩

/-- C4 (amended): in revision 2 every thrown error — precondition conflict or
not — is retried while attempts remain; when all attempts throw, the loop
makes all `MAX_RETRIES` (= 10) attempts and answers Busy (409).  A
non-conflict store failure is therefore retried like a conflict and finally
surfaced as Busy, not terminal after one attempt and not surfaced as a
distinct fatal store error. -/
theorem rev2ErrorsRetriedToBusy (entryId : String) (outcome : Nat → AttemptResult)
    (msgs : Nat → String) (hout : ∀ k, outcome k = .err (msgs k)) :
    postLoopRev2 entryId outcome = (.busy, MAX_RETRIES_REV2) ∧
    postStatus (postLoopRev2 entryId outcome).1 = 409 := by
  have hb : rev2Attempts entryId outcome MAX_RETRIES_REV2 1 =
      (.busy, MAX_RETRIES_REV2) :=
    rev2Attempts_allErr entryId outcome msgs hout MAX_RETRIES_REV2 1
      (by decide) (by decide)
  exact ⟨hb, by rw [show postLoopRev2 entryId outcome = _ from hb]; rfl⟩

/-- C4 witness: the amended statement evaluated on a run whose every attempt
throws a generic failure. -/
theorem rev2ErrorsRetriedToBusy_witness :
    postLoopRev2 "id-w" (fun _ => .err "boom 500") = (.busy, MAX_RETRIES_REV2) ∧
    postStatus (postLoopRev2 "id-w" (fun _ => .err "boom 500")).1 = 409 :=
  rev2ErrorsRetriedToBusy "id-w" (fun _ => .err "boom 500")
    (fun _ => "boom 500") (fun _ => rfl)

/-- C1: under any interleaving of the compare-and-swap commits of `n`
concurrent POST handlers appending entries with pairwise-distinct ids — with
revision 1's write-option selection or revision 2's — once every handler has
returned success (`applied`), the stored collection holds exactly `n`
records carrying exactly those ids: no committed record is lost, because
every retry re-reads the latest collection before re-appending. -/
theorem appendNoLostUpdate {n : Nat} (entry : Fin n → Record)
    (cond : Option Nat → List Record → WriteCond)
    (hcond : cond = (fun e _ => writeCondRev1 e) ∨ cond = writeCondRev2)
    (hids : ∀ i j : Fin n, (entry i).id = (entry j).id → i = j)
    (s : Sys n)
    (hreach : Relation.ReflTransGen (SysStep cond entry) (Sys.init n) s)
    (hall : ∀ w, s.writers w = .applied) :
    s.store.readData.length = n ∧
    (s.store.readData.map Record.id).Nodup ∧
    (∀ i : Fin n, (entry i).id ∈ s.store.readData.map Record.id) ∧
    (∀ x ∈ s.store.readData.map Record.id, ∃ i : Fin n, x = (entry i).id) := by
  have hc1 : ∀ e c, cond (some e) c = .onlyIfMatch e := by
    rcases hcond with rfl | rfl
    · intro e c
      rfl
    · intro e c
      rfl
  have hc2 : cond none [] = .onlyIfNew := by
    rcases hcond with rfl | rfl
    · rfl
    · rfl
  obtain ⟨⟨l, hnd, hmem, hdata⟩, -⟩ := sysInv_reach hc1 hc2 hreach
  have hlall : ∀ w : Fin n, w ∈ l := fun w => (hmem w).mpr (hall w)
  have hlen : l.length = n := by
    have hcard := List.toFinset_card_of_nodup hnd
    have huniv : l.toFinset = Finset.univ := by
      ext w
      simp [hlall w]
    rw [huniv] at hcard
    simpa using hcard.symm
  rw [hdata]
  refine ⟨by simpa using hlen, ?_, ?_, ?_⟩
  · rw [List.map_map]
    exact hnd.map fun i j hij => hids i j hij
  · intro i
    rw [List.map_map]
    exact List.mem_map_of_mem _ (hlall i)
  · intro x hx
    rw [List.map_map] at hx
    obtain ⟨i, -, rfl⟩ := List.mem_map.mp hx
    exact ⟨i, rfl⟩

/-- The single concurrent handler of the C1 witness run. -/
def wEntry : Fin 1 → Record := fun _ => ⟨"id-w1", "2025-06-01T00:00:00Z", "Sì", 2, "Anna"⟩

/-- The final state of the C1 witness run: the lone handler read the absent
blob and committed its entry with create-if-absent, bumping the version. -/
def sysFinal1 : Sys 1 :=
  ⟨⟨some [wEntry 0], 1⟩,
    Function.update
      (Function.update (fun _ : Fin 1 => WriterState.idle) 0
        (WriterState.readDone [] none)) 0 WriterState.applied⟩

/-- C1 witness: a complete one-handler run — read, then commit — reaching a
state where the handler is `applied` and the store holds exactly its entry. -/
theorem appendNoLostUpdate_witness :
    sysFinal1.store.readData.length = 1 ∧
    (sysFinal1.store.readData.map Record.id).Nodup ∧
    (∀ i : Fin 1, (wEntry i).id ∈ sysFinal1.store.readData.map Record.id) ∧
    (∀ x ∈ sysFinal1.store.readData.map Record.id, ∃ i : Fin 1, x = (wEntry i).id) := by
  have hone : ∀ a : Fin 1, a = 0 := fun a => Fin.ext (Nat.lt_one_iff.mp a.isLt)
  have hstep1 : SysStep (fun e _ => writeCondRev1 e) wEntry (Sys.init 1)
      ⟨(Sys.init 1).store,
        Function.update (Sys.init 1).writers 0
          (WriterState.readDone (Sys.init 1).store.readData (Sys.init 1).store.readEtag)⟩ :=
    SysStep.read (Sys.init 1) 0 rfl
  have hstep2 : SysStep (fun e _ => writeCondRev1 e) wEntry
      ⟨(Sys.init 1).store,
        Function.update (Sys.init 1).writers 0 (WriterState.readDone [] none)⟩
      sysFinal1 :=
    SysStep.commit
      ⟨(Sys.init 1).store,
        Function.update (Sys.init 1).writers 0 (WriterState.readDone [] none)⟩
      0 [] none ⟨some [wEntry 0], 1⟩ rfl rfl
  have hreach : Relation.ReflTransGen (SysStep (fun e _ => writeCondRev1 e) wEntry)
      (Sys.init 1) sysFinal1 :=
    Relation.ReflTransGen.tail (Relation.ReflTransGen.tail Relation.ReflTransGen.refl hstep1) hstep2
  have hall : ∀ w : Fin 1, sysFinal1.writers w = .applied := by
    intro w
    rw [hone w]
    rfl
  exact appendNoLostUpdate wEntry (fun e _ => writeCondRev1 e) (Or.inl rfl)
    (fun i j _ => by rw [hone i, hone j]) sysFinal1 hreach hall

/-- C5 witness: the unconditional-append description evaluated on the empty
collection and a sample record. -/
theorem appendTransform_unconditional_witness :
    appendTransform [] sampleRecord = [] ++ [sampleRecord] ∧
    (appendTransform [] sampleRecord).take (List.length ([] : List Record)) = [] ∧
    (appendTransform [] sampleRecord).getLast? = some sampleRecord ∧
    (appendTransform [] sampleRecord).length = List.length ([] : List Record) + 1 ∧
    ((∀ q ∈ ([] : List Record), q.id ≠ sampleRecord.id) →
      appendTransform [] sampleRecord = appendTransformSpec [] sampleRecord) :=
  appendTransform_unconditional [] sampleRecord

/-- C10 witness: appending one record with the unrecognised flag "Boh" to the
empty collection bumps only the record total. -/
theorem personsTotalSplit_witness :
    summarizeRev3 ([] ++ [⟨"id-b", "2025-01-06T00:00:00Z", "Boh", 7, ""⟩]) =
      { summarizeRev3 ([] : List Record) with
          rsvpTotal := (summarizeRev3 ([] : List Record)).rsvpTotal + 1 } :=
  personsTotalSplit.2.1 [] ⟨"id-b", "2025-01-06T00:00:00Z", "Boh", 7, ""⟩
    (by decide) (by decide)

end Rsvp
